import Mathlib

/-!
Shallow embedding of the session-key and dual-ledger client core of the
grid-game repository (files `src/app/src/lib/sessionKey.ts`, the
`useSessionKey` hook, and the `GameBoard` component with its appended
`lib/anchor` helpers).

Modelling conventions:
* byte arrays (`Uint8Array`) are `List Nat` with the range bound `< 256`
  stated as a hypothesis where it matters;
* public keys are identified with their byte values, compared by
  equality, matching the source's comparison of base58 `toString()`
  renderings;
* `localStorage` is an association list from `String` keys to `String`
  values; the JSON codec for a byte array is modelled by the injective
  byte-per-character codec `encodeBytes` / `decodeBytes`;
* external cryptography (`sha256`, ed25519 public-key derivation,
  detached signing) is a record `Crypto` of pure functions;
* each `async` operation of the hooks becomes a pure function from its
  explicit inputs (current React state, storage, and the outcomes of the
  ledger calls it performs, as `Except` values) to its result state
  together with a trace of the ledger effects it issued, in order.
-/

namespace GridGame

/-- Byte array (`Uint8Array` in the source). -/
abbrev Bytes := List Nat

/-- Public key, identified with its 32-byte value (the source compares
base58 `toString()` renderings, which agree with byte equality). -/
abbrev PubKey := Bytes

/-- External cryptographic primitives used by `sessionKey.ts`. -/
structure Crypto where
  /-- Model of `sha256` from `@noble/hashes`. -/
  sha256 : Bytes → Bytes
  /-- ed25519 public-key half appended by `Keypair.fromSeed`. -/
  pubFromSeed : Bytes → Bytes
  /-- Model of `nacl.sign.detached message secretKey`. -/
  naclSignDetached : Bytes → Bytes → Bytes

/-- Model of `@solana/web3.js` `Keypair`: a 64-byte secret (32-byte seed followed by
the 32-byte public key). -/
structure Keypair where
  secretKey : Bytes
  deriving DecidableEq, Repr

/-- The public half of the secret key (`secretKey[32:64]`). -/
def Keypair.publicKey (kp : Keypair) : Bytes := kp.secretKey.drop 32

/-- The seed half of the secret key (`secretKey[0:32]`). -/
def Keypair.seed (kp : Keypair) : Bytes := kp.secretKey.take 32

/-- Model of `Keypair.fromSeed`: builds the 64-byte secret from a 32-byte seed. -/
def Keypair.fromSeed (c : Crypto) (seed : Bytes) : Keypair :=
  ⟨seed ++ c.pubFromSeed seed⟩

/-- Model of `Keypair.fromSecretKey`: rejects byte strings that do not form a valid
64-byte ed25519 secret (the source throws; the model returns `none`). -/
def Keypair.fromSecretKey (bytes : Bytes) : Option Keypair :=
  if bytes.length = 64 then some ⟨bytes⟩ else none

/-! ### localStorage model -/

/-- Model of `localStorage`: a string-keyed string store. -/
abbrev Storage := List (String × String)

/-- Model of `localStorage.getItem`. -/
def getItem (st : Storage) (k : String) : Option String :=
  match st.find? (fun p => p.1 == k) with
  | some p => some p.2
  | none => none

/-- Model of `localStorage.setItem` (replaces any previous value for the key). -/
def setItem (st : Storage) (k v : String) : Storage :=
  (k, v) :: st.filter (fun p => !(p.1 == k))

/-- Model of `localStorage.removeItem`. -/
def removeItem (st : Storage) (k : String) : Storage :=
  st.filter (fun p => !(p.1 == k))

/-- Injective byte-array-to-string codec standing for
`JSON.stringify(Array.from bytes)`. -/
def encodeBytes (l : Bytes) : String := String.mk (l.map Char.ofNat)

/-- Inverse codec standing for `Uint8Array.from(JSON.parse s)`. -/
def decodeBytes (s : String) : Bytes := s.data.map Char.toNat

/-! ### sessionKey.ts -/

/-- The constant prompt text `SESSION_KEY_MESSAGE`. -/
def SESSION_KEY_MESSAGE : String :=
  "Sign this message to generate your deterministic session key for the game. This key will be the same across all devices."

/-- The canonical message text bound to the requesting origin. -/
def messageText (origin : String) : String :=
  SESSION_KEY_MESSAGE ++ "\n\nOrigin: " ++ origin

/-- UTF-8 bytes of the canonical message (`TextEncoder().encode`). -/
def messageBytes (origin : String) : Bytes :=
  (messageText origin).data.map Char.toNat

/-- Core of `deriveSessionKey` once the wallet has produced the signature
bytes: `seed = sha256(signature ++ messageBytes)[0:32]`, then
`Keypair.fromSeed seed`. -/
def deriveSessionKey (c : Crypto) (signature : Bytes) (origin : String) : Keypair :=
  let msg := messageBytes origin
  let hash := c.sha256 (signature ++ msg)
  let seed := hash.take 32
  Keypair.fromSeed c seed

/-- The wallet as seen by `deriveSessionKey`: an optional `signMessage`
capability and the signature component extracted from `signTransaction`
on the canonical memo pseudo-transaction (both are functions of the
message bytes only). -/
structure WalletSigner where
  publicKey : PubKey
  signMessage : Option (Bytes → Bytes)
  signTransactionSig : Bytes → Bytes

/-- Model of `deriveSessionKey` including the signer-capability branch: prefer
`signMessage`, otherwise fall back to the canonical-transaction signature. -/
def deriveSessionKeyW (c : Crypto) (w : WalletSigner) (origin : String) : Keypair :=
  let msg := messageBytes origin
  let signature :=
    match w.signMessage with
    | some f => f msg
    | none => w.signTransactionSig msg
  deriveSessionKey c signature origin

/-- The localStorage key `session_key_<walletPubkey>`. -/
def cacheKey (walletPubkey : PubKey) : String :=
  "session_key_" ++ toString walletPubkey

/-- The cached-load path of `getOrCreateSessionKey`: read the entry,
deserialize, and fall through to `none` on any failure. -/
def loadSessionKey (walletPubkey : PubKey) (st : Storage) : Option Keypair :=
  match getItem st (cacheKey walletPubkey) with
  | some cached => Keypair.fromSecretKey (decodeBytes cached)
  | none => none

/-- The caching write of `getOrCreateSessionKey`:
`localStorage.setItem(cacheKey, JSON.stringify(Array.from(secretKey)))`. -/
def storeSessionKey (walletPubkey : PubKey) (kp : Keypair) (st : Storage) : Storage :=
  setItem st (cacheKey walletPubkey) (encodeBytes kp.secretKey)

/-- Model of `clearSessionKey`. -/
def clearSessionKey (walletPubkey : PubKey) (st : Storage) : Storage :=
  removeItem st (cacheKey walletPubkey)

/-- Model of `hasSessionKey`. -/
def hasSessionKey (walletPubkey : PubKey) (st : Storage) : Bool :=
  (getItem st (cacheKey walletPubkey)).isSome

/-- Model of `getOrCreateSessionKey`: use the cached key when it deserializes,
otherwise derive a fresh key (the wallet signature request may fail, which
the source propagates out of the derivation) and cache it. -/
def getOrCreateSessionKey (c : Crypto) (signResult : Except Unit Bytes)
    (origin : String) (walletPubkey : PubKey) (st : Storage) :
    Except Unit (Keypair × Storage) :=
  match loadSessionKey walletPubkey st with
  | some kp => .ok (kp, st)
  | none =>
    match signResult with
    | .error e => .error e
    | .ok sig =>
      let kp := deriveSessionKey c sig origin
      .ok (kp, storeSessionKey walletPubkey kp st)

/-! ### Transactions and the SessionWallet -/

/-- Legacy `Transaction`: mutable fee payer, plus the fields the signing
path does not touch (summarised as `body`) and the list of signer keys
added by `partialSign`. -/
structure LegacyTx where
  feePayer : Option Bytes
  body : String
  signers : List Bytes
  deriving DecidableEq, Repr

/-- The compiled message of a `VersionedTransaction`: immutable once built.
`staticAccountKeys.take numRequiredSignatures` are the required signer
keys; the fee payer is the first static account key. `payload` summarises
the remaining message fields (instructions, blockhash, lookups). -/
structure VersionedMessage where
  numRequiredSignatures : Nat
  staticAccountKeys : List Bytes
  payload : String
  deriving DecidableEq, Repr

/-- Serialized message bytes signed by `VersionedTransaction.sign`. -/
def VersionedMessage.serializedBytes (m : VersionedMessage) : Bytes :=
  [m.numRequiredSignatures] ++ m.staticAccountKeys.foldl (· ++ ·) []
    ++ m.payload.data.map Char.toNat

/-- Model of `VersionedTransaction`: an immutable message plus one signature slot
per required signer. -/
structure VersionedTx where
  message : VersionedMessage
  signatures : List Bytes
  deriving DecidableEq, Repr

/-- The fee payer of a versioned transaction is the first static key. -/
def VersionedTx.feePayer (tx : VersionedTx) : Option Bytes :=
  tx.message.staticAccountKeys.head?

/-- Model of `VersionedTransaction.sign([keypair])`: locate the keypair's public key
among the required signer keys (throwing — `none` — when absent) and write
the detached signature of the serialized message into that slot. -/
def VersionedTx.sign (c : Crypto) (tx : VersionedTx) (kp : Keypair) : Option VersionedTx :=
  let signerKeys := tx.message.staticAccountKeys.take tx.message.numRequiredSignatures
  match signerKeys.indexOf? kp.publicKey with
  | none => none
  | some i =>
    some { tx with
      signatures := tx.signatures.set i
        (c.naclSignDetached tx.message.serializedBytes kp.secretKey) }

/-- Either transaction representation accepted by `signTransaction`. -/
inductive Tx where
  | legacy (t : LegacyTx)
  | versioned (t : VersionedTx)
  deriving DecidableEq, Repr

/-- Model of `SessionWallet`: wraps the main wallet and the session keypair. -/
structure SessionWallet where
  mainWallet : WalletSigner
  sessionKey : Keypair

/-- Model of `SessionWallet.publicKey` getter. -/
def SessionWallet.publicKey (w : SessionWallet) : Bytes :=
  w.sessionKey.publicKey

/-- Model of `SessionWallet.signTransaction`: versioned transactions are signed in
place (message untouched); legacy transactions first get their fee payer
set to the session public key and are then partially signed. -/
def SessionWallet.signTransaction (c : Crypto) (w : SessionWallet) : Tx → Option Tx
  | .versioned t => (t.sign c w.sessionKey).map .versioned
  | .legacy t =>
    some (.legacy { t with
      feePayer := some w.sessionKey.publicKey,
      signers := t.signers ++ [w.sessionKey.publicKey] })

/-- The fee payer of either representation, after or before signing. -/
def Tx.feePayer : Tx → Option Bytes
  | .legacy t => t.feePayer
  | .versioned t => t.feePayer

/-! ### Ledger routing and the useSessionKey hook -/

/-- The two ledgers: the base layer (primary) and the ephemeral rollup. -/
inductive Ledger where
  | base
  | er
  deriving DecidableEq, Repr

/-- Model of `getConnectionForAccount` from `lib/anchor`: the ER connection for
delegated accounts, the base (devnet) connection otherwise. -/
def getConnectionForAccount (isDelegated : Bool) : Ledger :=
  if isDelegated then .er else .base

/-- Ledger interactions issued by the hook operations, in order. -/
inductive Effect where
  | getAccountInfo (l : Ledger)
  | fetchPlayer (l : Ledger)
  | requestAirdrop (l : Ledger)
  | submitRegister (l : Ledger) (sessionPub : Bytes)
  | submitRevoke (l : Ledger)
  deriving DecidableEq, Repr

/-- Model of `getCurrentDelegationStatus`: `false` without a connected wallet;
otherwise a live `getAccountInfo` on the base connection, `false` when the
account is absent or the read throws, and owner-differs-from-program
otherwise. `readResult` is the outcome of that live read (the owner of the
account when it exists). -/
def getCurrentDelegationStatus (connected : Bool) (programId : PubKey)
    (readResult : Except Unit (Option PubKey)) : Bool :=
  if connected then
    match readResult with
    | .ok (some owner) => owner != programId
    | .ok none => false
    | .error _ => false
  else false

/-- The hook's per-identity React state. -/
structure SessionState where
  sessionKey : Option Keypair
  sessionWallet : Option SessionWallet
  isRegistered : Bool
  isDelegated : Bool

/-- Model of `createSessionKey`: requires a connected wallet; loads or derives the
key via `getOrCreateSessionKey`, stores it in state, and returns it; on
any failure returns `none` with state and storage unchanged. -/
def createSessionKey (c : Crypto) (origin : String) (wallet : Option WalletSigner)
    (signResult : Except Unit Bytes) (st : SessionState) (storage : Storage) :
    Option Keypair × SessionState × Storage :=
  match wallet with
  | none => (none, st, storage)
  | some w =>
    match getOrCreateSessionKey c signResult origin w.publicKey storage with
    | .error _ => (none, st, storage)
    | .ok (kp, storage') =>
      (some kp,
       { st with sessionKey := some kp, sessionWallet := some ⟨w, kp⟩ },
       storage')

/-- Model of `registerSessionKey`: requires a connected wallet; uses the held key or
creates one; live-reads the delegation owner; submits the register
instruction carrying the session public key on the connection for that
owner; marks registered (and records the live delegation flag) on success. -/
def registerSessionKey (c : Crypto) (origin : String) (programId : PubKey)
    (wallet : Option WalletSigner) (st : SessionState) (storage : Storage)
    (signResult : Except Unit Bytes) (liveRead : Except Unit (Option PubKey))
    (rpcResult : Except Unit String) :
    Bool × SessionState × Storage × List Effect :=
  match wallet with
  | none => (false, st, storage, [])
  | some w =>
    let acquired : Option (Keypair × SessionState × Storage) :=
      match st.sessionKey with
      | some k => some (k, st, storage)
      | none =>
        match createSessionKey c origin (some w) signResult st storage with
        | (some k, st', storage') => some (k, st', storage')
        | (none, _, _) => none
    match acquired with
    | none => (false, st, storage, [])
    | some (k, st1, storage1) =>
      let currentlyDelegated := getCurrentDelegationStatus true programId liveRead
      let ledger := getConnectionForAccount currentlyDelegated
      let effects := [Effect.getAccountInfo .base, Effect.submitRegister ledger k.publicKey]
      match rpcResult with
      | .ok _ =>
        (true,
         { st1 with isRegistered := true, isDelegated := currentlyDelegated },
         storage1, effects)
      | .error _ => (false, st1, storage1, effects)

/-- Model of `revokeSessionKey`: requires a connected wallet; live-reads the
delegation owner and submits the revoke on the connection for that owner;
on success clears the cache entry and the in-memory key, wallet and
registered flag; on a thrown submission the `catch` returns `false` with
no local change. -/
def revokeSessionKey (programId : PubKey) (wallet : Option WalletSigner)
    (st : SessionState) (storage : Storage)
    (liveRead : Except Unit (Option PubKey)) (rpcResult : Except Unit String) :
    Bool × SessionState × Storage × List Effect :=
  match wallet with
  | none => (false, st, storage, [])
  | some w =>
    let currentlyDelegated := getCurrentDelegationStatus true programId liveRead
    let ledger := getConnectionForAccount currentlyDelegated
    let effects := [Effect.getAccountInfo .base, Effect.submitRevoke ledger]
    match rpcResult with
    | .ok _ =>
      (true,
       { st with sessionKey := none, sessionWallet := none, isRegistered := false },
       clearSessionKey w.publicKey storage,
       effects)
    | .error _ => (false, st, storage, effects)

/-! ### GameBoard: dual-ledger snapshots and reconciliation -/

/-- Decoded `player` account fields as fetched from either ledger. -/
structure RawPlayer where
  x : Int
  y : Int
  authority : PubKey
  sessionKey : Option PubKey
  deriving DecidableEq, Repr

/-- The `PlayerData` snapshot kept per ledger, tagged with the ledger it
was decoded from (`isDelegated` is `false` for base-layer snapshots and
`true` for ER snapshots). -/
structure PlayerData where
  x : Int
  y : Int
  authority : PubKey
  sessionKey : Option PubKey
  isDelegated : Bool
  deriving DecidableEq, Repr

/-- Tag a decoded account as a snapshot of the given ledger. -/
def RawPlayer.toSnapshot (p : RawPlayer) (delegated : Bool) : PlayerData :=
  ⟨p.x, p.y, p.authority, p.sessionKey, delegated⟩

/-- The GameBoard's dual-ledger view state. -/
structure ViewState where
  basePlayer : Option PlayerData
  erPlayer : Option PlayerData
  isDelegated : Bool
  deriving DecidableEq, Repr

/-- The computed `player` value:
`const player = isDelegated ? erPlayer : basePlayer`. -/
def reconcilePlayer (isDelegated : Bool) (erPlayer basePlayer : Option PlayerData) :
    Option PlayerData :=
  if isDelegated then erPlayer else basePlayer

/-- Model of `fetchPlayerData`: guard on connection and wallet; read the account on
the base layer first; when absent (or the read throws) clear both
snapshots and the delegation flag; when present compute delegation as
owner-differs-from-program, refresh the base snapshot (keeping the old one
if the decode fetch throws), and read the ER copy — preceded by the lazy
airdrop probe — only when delegated and the ER connection exists,
clearing the ER snapshot otherwise. -/
def fetchPlayerData (programId : PubKey) (wallet : Option WalletSigner)
    (baseConnPresent erConnPresent : Bool) (st : ViewState)
    (baseRead : Except Unit (Option PubKey))
    (baseFetch : Except Unit RawPlayer) (erFetch : Except Unit RawPlayer) :
    ViewState × List Effect :=
  match wallet, baseConnPresent with
  | none, _ => (st, [])
  | some _, false => (st, [])
  | some _, true =>
    match baseRead with
    | .error _ => (⟨none, none, false⟩, [Effect.getAccountInfo .base])
    | .ok none => (⟨none, none, false⟩, [Effect.getAccountInfo .base])
    | .ok (some owner) =>
      let delegated := owner != programId
      let st1 : ViewState :=
        { basePlayer :=
            match baseFetch with
            | .ok p => some (p.toSnapshot false)
            | .error _ => st.basePlayer,
          erPlayer := st.erPlayer,
          isDelegated := delegated }
      if delegated && erConnPresent then
        ({ st1 with
           erPlayer :=
             match erFetch with
             | .ok p => some (p.toSnapshot true)
             | .error _ => st1.erPlayer },
         [Effect.getAccountInfo .base, Effect.fetchPlayer .base,
          Effect.requestAirdrop .er, Effect.fetchPlayer .er])
      else
        ({ st1 with erPlayer := none },
         [Effect.getAccountInfo .base, Effect.fetchPlayer .base])

/-! ### Concrete instances used to exercise the theorems -/

/-- A concrete executable stand-in for the crypto primitives (32-byte
digests, 32-byte public halves, 64-byte signatures). -/
def cryptoW : Crypto where
  sha256 := fun b => (List.range 32).map (fun i => (b.foldl (fun a x => a + x) 0 + i) % 256)
  pubFromSeed := fun s => (List.range 32).map (fun i => (s.foldl (fun a x => a + x) 1 + i) % 256)
  naclSignDetached := fun m k => (List.range 64).map (fun i => (m.length + k.length + i) % 256)

/-- A concrete 64-byte keypair. -/
def kpW : Keypair := ⟨List.range 64⟩

/-- A concrete primary-identity public key. -/
def pkW : PubKey := [1, 2, 3]

/-- A concrete expected program id. -/
def progW : PubKey := [9, 9]

/-- A concrete connected wallet whose signer always returns the bytes
`[7, 7, 7]`. -/
def walletW : WalletSigner where
  publicKey := pkW
  signMessage := some (fun _ => [7, 7, 7])
  signTransactionSig := fun _ => [7, 7, 7]

/-- A concrete hook state holding `kpW` as the active session key. -/
def stW : SessionState where
  sessionKey := some kpW
  sessionWallet := some ⟨walletW, kpW⟩
  isRegistered := true
  isDelegated := false

/-- A concrete hook state holding no session key. -/
def stEmpty : SessionState where
  sessionKey := none
  sessionWallet := none
  isRegistered := false
  isDelegated := false

/-- A concrete storage with `kpW` cached for `pkW`. -/
def storageW : Storage := storeSessionKey pkW kpW []

/-- A concrete base-layer player snapshot at position `(5, 5)`. -/
def pBase5 : PlayerData := ⟨5, 5, pkW, none, false⟩

/-- A concrete rollup player snapshot at position `(7, 7)`. -/
def pEr7 : PlayerData := ⟨7, 7, pkW, none, true⟩

/-- A concrete raw decoded player account. -/
def rawW : RawPlayer := ⟨10, 10, pkW, none⟩

/-- A concrete session wallet over `walletW` and `kpW`. -/
def sessWalletW : SessionWallet := ⟨walletW, kpW⟩

/-- A concrete versioned transaction requiring a signature from `kpW`. -/
def vtxW : VersionedTx where
  message :=
    { numRequiredSignatures := 1
      staticAccountKeys := [kpW.publicKey, [4, 4]]
      payload := "m" }
  signatures := [[0]]

/-- A concrete legacy transaction with the primary identity as fee payer. -/
def ltxW : LegacyTx where
  feePayer := some pkW
  body := "b"
  signers := []

/-- A concrete storage whose cached entry for `pkW` is corrupted (three
bytes cannot form a 64-byte secret key). -/
def stCorrupt : Storage := [(cacheKey pkW, "abc")]

/-! ### Helper lemmas on the storage and codec models -/

theorem getItem_setItem_self (st : Storage) (k v : String) :
    getItem (setItem st k v) k = some v := by
  simp [getItem, setItem, List.find?]

theorem find?_filter_ne (st : Storage) (k : String) :
    (st.filter (fun p => !(p.1 == k))).find? (fun p => p.1 == k) = none := by
  rw [List.find?_eq_none]
  intro p hp
  have h := List.of_mem_filter hp
  simp at h
  simp [h]

theorem getItem_removeItem_self (st : Storage) (k : String) :
    getItem (removeItem st k) k = none := by
  unfold getItem removeItem
  rw [find?_filter_ne]

theorem char_toNat_ofNat (n : Nat) (h : n < 256) : (Char.ofNat n).toNat = n := by
  have hv : n.isValidChar := Or.inl (by omega)
  rw [Char.ofNat, dif_pos hv]
  rfl

theorem decodeBytes_encodeBytes (l : Bytes) (h : ∀ b ∈ l, b < 256) :
    decodeBytes (encodeBytes l) = l := by
  unfold decodeBytes encodeBytes
  simp only [String.data]
  rw [List.map_map]
  calc l.map (Char.toNat ∘ Char.ofNat)
      = l.map id := List.map_congr_left (fun b hb => char_toNat_ofNat b (h b hb))
    _ = l := List.map_id l

/-! ### Claim theorems -/

/-- C2 counterexample: with the delegation flag true and no rollup
snapshot present, the computed player is absent — not the primary
snapshot `(5, 5)` that the claim's "otherwise" case requires. -/
theorem reconcilePlayer_delegated_absent_ne_primary :
    reconcilePlayer true none (some pBase5) = none ∧
    reconcilePlayer true none (some pBase5) ≠ some pBase5 := by
  decide

/-- C2 (amended): the authoritative snapshot is the rollup slot — present
or absent — whenever the delegation flag is true, and the primary slot
when it is false; in particular primary `(5, 5)` with rollup `(7, 7)`
yields `(7, 7)` when delegated and `(5, 5)` when not. -/
theorem reconcilePlayer_spec :
    (∀ er base : Option PlayerData, reconcilePlayer true er base = er) ∧
    (∀ er base : Option PlayerData, reconcilePlayer false er base = base) ∧
    reconcilePlayer true (some pEr7) (some pBase5) = some pEr7 ∧
    reconcilePlayer false (some pEr7) (some pBase5) = some pBase5 :=
  ⟨fun _ _ => rfl, fun _ _ => rfl, rfl, rfl⟩

/-- C7: storing a well-formed keypair in the credential cache and loading
for the same identity returns a keypair with identical secret and public
bytes; clearing the entry and loading returns absent, and `hasSessionKey`
reports false. -/
theorem cache_roundtrip (pk : PubKey) (kp : Keypair) (st : Storage)
    (hlen : kp.secretKey.length = 64) (hbytes : ∀ b ∈ kp.secretKey, b < 256) :
    loadSessionKey pk (storeSessionKey pk kp st) = some kp ∧
    (loadSessionKey pk (storeSessionKey pk kp st)).map Keypair.secretKey = some kp.secretKey ∧
    (loadSessionKey pk (storeSessionKey pk kp st)).map Keypair.publicKey = some kp.publicKey ∧
    loadSessionKey pk (clearSessionKey pk st) = none ∧
    hasSessionKey pk (clearSessionKey pk st) = false := by
  have h1 : loadSessionKey pk (storeSessionKey pk kp st) = some kp := by
    unfold loadSessionKey storeSessionKey
    rw [getItem_setItem_self]
    show Keypair.fromSecretKey (decodeBytes (encodeBytes kp.secretKey)) = some kp
    rw [decodeBytes_encodeBytes _ hbytes]
    unfold Keypair.fromSecretKey
    rw [if_pos hlen]
  have h2 : loadSessionKey pk (clearSessionKey pk st) = none := by
    unfold loadSessionKey clearSessionKey
    rw [getItem_removeItem_self]
  refine ⟨h1, by rw [h1]; rfl, by rw [h1]; rfl, h2, ?_⟩
  unfold hasSessionKey clearSessionKey
  rw [getItem_removeItem_self]
  rfl

/-- C7 witness at the concrete keypair `kpW` and identity `pkW`. -/
theorem cache_roundtrip_witness :
    kpW.secretKey.length = 64 ∧
    loadSessionKey pkW (storeSessionKey pkW kpW []) = some kpW :=
  ⟨by decide, (cache_roundtrip pkW kpW [] (by decide) (by decide)).1⟩

/-- C8: when the cached entry fails to deserialize into a valid keypair,
`getOrCreateSessionKey` behaves as if the entry were absent: it derives a
fresh key, caches it and returns it, instead of propagating the
deserialization error. -/
theorem getOrCreateSessionKey_fails_open (c : Crypto) (sig : Bytes)
    (origin : String) (pk : PubKey) (st : Storage) (cachedVal : String)
    (hfind : getItem st (cacheKey pk) = some cachedVal)
    (hbad : Keypair.fromSecretKey (decodeBytes cachedVal) = none) :
    getOrCreateSessionKey c (.ok sig) origin pk st =
      .ok (deriveSessionKey c sig origin,
           storeSessionKey pk (deriveSessionKey c sig origin) st) := by
  have hload : loadSessionKey pk st = none := by
    unfold loadSessionKey
    rw [hfind]
    exact hbad
  unfold getOrCreateSessionKey
  rw [hload]

/-- C8 witness at the concrete corrupted cache `stCorrupt`. -/
theorem getOrCreateSessionKey_fails_open_witness :
    getItem stCorrupt (cacheKey pkW) = some "abc" ∧
    getOrCreateSessionKey cryptoW (.ok [1, 2]) "app" pkW stCorrupt =
      .ok (deriveSessionKey cryptoW [1, 2] "app",
           storeSessionKey pkW (deriveSessionKey cryptoW [1, 2] "app") stCorrupt) :=
  ⟨rfl, getOrCreateSessionKey_fails_open cryptoW [1, 2] "app" pkW stCorrupt "abc" rfl rfl⟩

/-- C6: `signTransaction` of a session wallet never assigns the primary
identity's key as fee payer: a legacy transaction gets the session public
key as its fee payer before signing, and a versioned transaction's fee
payer is left untouched. -/
theorem signTransaction_feePayer_scoped (c : Crypto) (w : SessionWallet)
    (hne : w.sessionKey.publicKey ≠ w.mainWallet.publicKey) :
    (∀ t : LegacyTx, ∀ tx' : Tx, w.signTransaction c (.legacy t) = some tx' →
        tx'.feePayer = some w.sessionKey.publicKey ∧
        tx'.feePayer ≠ some w.mainWallet.publicKey) ∧
    (∀ v : VersionedTx, ∀ tx' : Tx, w.signTransaction c (.versioned v) = some tx' →
        tx'.feePayer = (Tx.versioned v).feePayer) := by
  constructor
  · intro t tx' h
    unfold SessionWallet.signTransaction at h
    cases h
    refine ⟨rfl, ?_⟩
    intro hcontra
    exact hne (by simpa [Tx.feePayer] using hcontra)
  · intro v tx' h
    simp only [SessionWallet.signTransaction, VersionedTx.sign] at h
    cases hidx : (v.message.staticAccountKeys.take v.message.numRequiredSignatures).indexOf?
        w.sessionKey.publicKey with
    | none => simp [hidx] at h
    | some i =>
      simp only [hidx, Option.map_some'] at h
      cases h
      rfl

/-- C6 witness at the concrete session wallet `sessWalletW` and legacy
transaction `ltxW`. -/
theorem signTransaction_feePayer_scoped_witness :
    sessWalletW.sessionKey.publicKey ≠ sessWalletW.mainWallet.publicKey ∧
    (Tx.legacy
      { ltxW with
        feePayer := some sessWalletW.sessionKey.publicKey,
        signers := ltxW.signers ++ [sessWalletW.sessionKey.publicKey] }).feePayer ≠
      some sessWalletW.mainWallet.publicKey :=
  ⟨by decide,
   ((signTransaction_feePayer_scoped cryptoW sessWalletW (by decide)).1 ltxW _ rfl).2⟩

/-- C1 counterexample: a revoke whose on-chain submission throws leaves
the in-memory session key, the session wallet, the registered flag and
the cached entry untouched, so the local clearing is not unconditional. -/
theorem revokeSessionKey_failure_keeps_credential :
    (revokeSessionKey progW (some walletW) stW storageW (.ok (some progW)) (.error ())).2.1.sessionKey = some kpW ∧
    ((revokeSessionKey progW (some walletW) stW storageW (.ok (some progW)) (.error ())).2.1.sessionWallet).isSome = true ∧
    (revokeSessionKey progW (some walletW) stW storageW (.ok (some progW)) (.error ())).2.1.isRegistered = true ∧
    hasSessionKey pkW (revokeSessionKey progW (some walletW) stW storageW (.ok (some progW)) (.error ())).2.2.1 = true ∧
    (revokeSessionKey progW (some walletW) stW storageW (.ok (some progW)) (.error ())).1 = false := by
  refine ⟨rfl, rfl, rfl, ?_, rfl⟩
  decide

/-- C1 (amended): `revokeSessionKey` with a connected wallet clears the
cached entry and the in-memory session key, session wallet and registered
flag exactly when the on-chain revoke submission succeeds; a thrown
submission leaves the local credential state and cache unchanged and
reports failure. -/
theorem revokeSessionKey_clear_spec (programId : PubKey) (w : WalletSigner)
    (st : SessionState) (storage : Storage)
    (liveRead : Except Unit (Option PubKey)) :
    (∀ s : String,
       (revokeSessionKey programId (some w) st storage liveRead (.ok s)).2.1.sessionKey = none ∧
       ((revokeSessionKey programId (some w) st storage liveRead (.ok s)).2.1.sessionWallet).isNone = true ∧
       (revokeSessionKey programId (some w) st storage liveRead (.ok s)).2.1.isRegistered = false ∧
       (revokeSessionKey programId (some w) st storage liveRead (.ok s)).2.2.1 =
         clearSessionKey w.publicKey storage ∧
       hasSessionKey w.publicKey (revokeSessionKey programId (some w) st storage liveRead (.ok s)).2.2.1 = false) ∧
    (∀ e : Unit,
       revokeSessionKey programId (some w) st storage liveRead (.error e) =
         (false, st, storage,
          [Effect.getAccountInfo .base,
           Effect.submitRevoke
             (getConnectionForAccount (getCurrentDelegationStatus true programId liveRead))])) := by
  refine ⟨fun s => ⟨rfl, rfl, rfl, rfl, ?_⟩, fun e => rfl⟩
  show hasSessionKey w.publicKey (clearSessionKey w.publicKey storage) = false
  unfold hasSessionKey clearSessionKey
  rw [getItem_removeItem_self]
  rfl

/-- C3: for a fixed signature and origin the derived session key is a
pure function of those inputs: the wallet-facing derivation collapses to
the signature-level one, the secret seed is exactly
`sha256(signature ++ messageBytes)[0:32]`, and the public identifier is
determined by that seed. -/
theorem deriveSessionKey_deterministic (c : Crypto) (sig : Bytes) (origin : String)
    (h : 32 ≤ (c.sha256 (sig ++ messageBytes origin)).length) :
    (∀ w : WalletSigner, ∀ f : Bytes → Bytes,
       w.signMessage = some f → f (messageBytes origin) = sig →
       deriveSessionKeyW c w origin = deriveSessionKey c sig origin) ∧
    (deriveSessionKey c sig origin).seed = (c.sha256 (sig ++ messageBytes origin)).take 32 ∧
    (deriveSessionKey c sig origin).publicKey =
      c.pubFromSeed ((c.sha256 (sig ++ messageBytes origin)).take 32) := by
  have hlen : ((c.sha256 (sig ++ messageBytes origin)).take 32).length = 32 := by
    rw [List.length_take]
    omega
  refine ⟨?_, ?_, ?_⟩
  · intro w f hw hf
    unfold deriveSessionKeyW
    rw [hw]
    show deriveSessionKey c (f (messageBytes origin)) origin = deriveSessionKey c sig origin
    rw [hf]
  · unfold deriveSessionKey Keypair.fromSeed Keypair.seed
    simp [List.take_append_of_le_length, hlen]
  · unfold deriveSessionKey Keypair.fromSeed Keypair.publicKey
    have hnil : List.drop 32 ((c.sha256 (sig ++ messageBytes origin)).take 32) = [] :=
      List.drop_eq_nil_of_le (by omega)
    rw [List.drop_append_of_le_length (by omega), hnil, List.nil_append]

/-- C3 witness at the concrete crypto stand-in, signature `[1, 2]` and
origin `"app"`. -/
theorem deriveSessionKey_deterministic_witness :
    32 ≤ (cryptoW.sha256 ([1, 2] ++ messageBytes "app")).length ∧
    (deriveSessionKey cryptoW [1, 2] "app").seed =
      (cryptoW.sha256 ([1, 2] ++ messageBytes "app")).take 32 :=
  ⟨by decide, (deriveSessionKey_deterministic cryptoW [1, 2] "app" (by decide)).2.1⟩

/-- C9: signing a versioned transaction with the session wallet changes
nothing but the session key's signature slot: the message — hence the fee
payer and every other message field — is unchanged, and every other
signature slot is preserved. -/
theorem signTransaction_versioned_frame (c : Crypto) (w : SessionWallet)
    (v : VersionedTx) (tx' : VersionedTx)
    (h : w.signTransaction c (.versioned v) = some (.versioned tx')) :
    tx'.message = v.message ∧ tx'.feePayer = v.feePayer ∧
    ∃ i, (v.message.staticAccountKeys.take v.message.numRequiredSignatures).indexOf?
           w.sessionKey.publicKey = some i ∧
      tx'.signatures = v.signatures.set i
        (c.naclSignDetached v.message.serializedBytes w.sessionKey.secretKey) ∧
      ∀ j, j ≠ i → tx'.signatures[j]? = v.signatures[j]? := by
  simp only [SessionWallet.signTransaction, VersionedTx.sign] at h
  cases hidx : (v.message.staticAccountKeys.take v.message.numRequiredSignatures).indexOf?
      w.sessionKey.publicKey with
  | none => simp [hidx] at h
  | some i =>
    simp only [hidx, Option.map_some'] at h
    cases h
    refine ⟨rfl, rfl, i, rfl, rfl, ?_⟩
    intro j hj
    exact List.getElem?_set_ne (by omega)

/-- C9 witness at the concrete versioned transaction `vtxW`. -/
theorem signTransaction_versioned_frame_witness :
    sessWalletW.signTransaction cryptoW (.versioned vtxW) =
      some (.versioned
        { vtxW with
          signatures := vtxW.signatures.set 0
            (cryptoW.naclSignDetached vtxW.message.serializedBytes sessWalletW.sessionKey.secretKey) }) ∧
    ({ vtxW with
       signatures := vtxW.signatures.set 0
         (cryptoW.naclSignDetached vtxW.message.serializedBytes sessWalletW.sessionKey.secretKey) } : VersionedTx).message = vtxW.message :=
  ⟨by decide,
   (signTransaction_versioned_frame cryptoW sessWalletW vtxW _ (by decide)).1⟩

/-- C4: `fetchPlayerData` reads the base-layer account first; an absent
account clears both snapshots and the delegation flag; a present account
sets the delegation flag exactly when its owner differs from the expected
program id, reads the rollup copy only when that flag is set, and clears
the rollup snapshot otherwise. -/
theorem fetchPlayerData_spec (programId : PubKey) (w : WalletSigner)
    (erConn : Bool) (st : ViewState) (baseFetch erFetch : Except Unit RawPlayer) :
    (fetchPlayerData programId (some w) true erConn st (.ok none) baseFetch erFetch =
       (⟨none, none, false⟩, [Effect.getAccountInfo .base])) ∧
    (∀ owner : PubKey,
       ((fetchPlayerData programId (some w) true erConn st (.ok (some owner)) baseFetch erFetch).2.head? =
          some (Effect.getAccountInfo .base)) ∧
       ((fetchPlayerData programId (some w) true erConn st (.ok (some owner)) baseFetch erFetch).1.isDelegated =
          (owner != programId)) ∧
       (Effect.fetchPlayer .er ∈
          (fetchPlayerData programId (some w) true erConn st (.ok (some owner)) baseFetch erFetch).2 →
          owner ≠ programId) ∧
       (owner = programId →
          (fetchPlayerData programId (some w) true erConn st (.ok (some owner)) baseFetch erFetch).1.erPlayer =
            none)) := by
  refine ⟨rfl, fun owner => ?_⟩
  by_cases hq : owner = programId
  · have hb : (owner != programId) = false := by simp [hq]
    simp [fetchPlayerData, hb, hq]
  · have hb : (owner != programId) = true := by simp [hq]
    cases erConn with
    | false => simp [fetchPlayerData, hb, hq]
    | true => simp [fetchPlayerData, hb, hq]

/-- C4 witness: with the account present and owned by the expected
program, the rollup snapshot is cleared. -/
theorem fetchPlayerData_spec_witness :
    progW = progW ∧
    (fetchPlayerData progW (some walletW) true true ⟨some pBase5, some pEr7, true⟩
      (.ok (some progW)) (.ok rawW) (.ok rawW)).1.erPlayer = none :=
  ⟨rfl,
   ((fetchPlayerData_spec progW walletW true ⟨some pBase5, some pEr7, true⟩
       (.ok rawW) (.ok rawW)).2 progW).2.2.2 rfl⟩

/-- C5: `registerSessionKey` first holds or acquires a session key (via
the cache-or-derive path of `createSessionKey`) and then submits the
register instruction carrying that key's public key on the connection
selected by the live delegation read; when no key can be acquired nothing
is submitted and the call fails with no local change. -/
theorem registerSessionKey_spec (c : Crypto) (origin : String)
    (programId : PubKey) (w : WalletSigner) (st : SessionState)
    (storage : Storage) (signResult : Except Unit Bytes)
    (liveRead : Except Unit (Option PubKey)) (rpcResult : Except Unit String) :
    (∀ k : Keypair, st.sessionKey = some k →
       (registerSessionKey c origin programId (some w) st storage signResult liveRead rpcResult).2.2.2 =
         [Effect.getAccountInfo .base,
          Effect.submitRegister
            (getConnectionForAccount (getCurrentDelegationStatus true programId liveRead))
            k.publicKey]) ∧
    (∀ k : Keypair, ∀ st' : SessionState, ∀ storage' : Storage,
       st.sessionKey = none →
       createSessionKey c origin (some w) signResult st storage = (some k, st', storage') →
       (registerSessionKey c origin programId (some w) st storage signResult liveRead rpcResult).2.2.2 =
         [Effect.getAccountInfo .base,
          Effect.submitRegister
            (getConnectionForAccount (getCurrentDelegationStatus true programId liveRead))
            k.publicKey]) ∧
    (∀ st' : SessionState, ∀ storage' : Storage,
       st.sessionKey = none →
       createSessionKey c origin (some w) signResult st storage = (none, st', storage') →
       registerSessionKey c origin programId (some w) st storage signResult liveRead rpcResult =
         (false, st, storage, [])) := by
  refine ⟨?_, ?_, ?_⟩
  · intro k hk
    unfold registerSessionKey
    rw [hk]
    cases rpcResult <;> rfl
  · intro k st' storage' hnone hcreate
    unfold registerSessionKey
    simp only [hnone, hcreate]
    cases rpcResult <;> rfl
  · intro st' storage' hnone hcreate
    unfold registerSessionKey
    simp only [hnone, hcreate]

/-- C5 witness at the concrete state `stW`, which already holds `kpW`. -/
theorem registerSessionKey_spec_witness :
    stW.sessionKey = some kpW ∧
    (registerSessionKey cryptoW "app" progW (some walletW) stW storageW
        (.ok [1, 2]) (.ok (some progW)) (.ok "tx")).2.2.2 =
      [Effect.getAccountInfo .base,
       Effect.submitRegister
         (getConnectionForAccount (getCurrentDelegationStatus true progW (.ok (some progW))))
         kpW.publicKey] :=
  ⟨rfl,
   (registerSessionKey_spec cryptoW "app" progW walletW stW storageW
      (.ok [1, 2]) (.ok (some progW)) (.ok "tx")).1 kpW rfl⟩

/-- C10: the live delegation read is false whenever the wallet is not
connected, the backing account is absent, or the read throws; after such
a failed read the subsequent revoke or register submission goes to the
base (primary) ledger. -/
theorem getCurrentDelegationStatus_fail_safe (c : Crypto) (origin : String)
    (programId : PubKey) (w : WalletSigner) (st : SessionState)
    (storage : Storage) (signResult : Except Unit Bytes)
    (rpcResult : Except Unit String) :
    (∀ liveRead : Except Unit (Option PubKey),
       getCurrentDelegationStatus false programId liveRead = false) ∧
    (getCurrentDelegationStatus true programId (.ok none) = false) ∧
    (∀ e : Unit, getCurrentDelegationStatus true programId (.error e) = false) ∧
    (∀ e : Unit,
       (revokeSessionKey programId (some w) st storage (.error e) rpcResult).2.2.2 =
         [Effect.getAccountInfo .base, Effect.submitRevoke .base]) ∧
    (∀ e : Unit, ∀ k : Keypair, st.sessionKey = some k →
       (registerSessionKey c origin programId (some w) st storage signResult (.error e) rpcResult).2.2.2 =
         [Effect.getAccountInfo .base, Effect.submitRegister .base k.publicKey]) := by
  refine ⟨fun _ => rfl, rfl, fun _ => rfl, ?_, ?_⟩
  · intro e
    unfold revokeSessionKey
    cases rpcResult <;> rfl
  · intro e k hk
    unfold registerSessionKey
    rw [hk]
    cases rpcResult <;> rfl

/-- C10 witness at the concrete state `stW` and a thrown live read. -/
theorem getCurrentDelegationStatus_fail_safe_witness :
    stW.sessionKey = some kpW ∧
    (registerSessionKey cryptoW "app" progW (some walletW) stW storageW
        (.ok [1, 2]) (.error ()) (.ok "tx")).2.2.2 =
      [Effect.getAccountInfo .base, Effect.submitRegister .base kpW.publicKey] :=
  ⟨rfl,
   (getCurrentDelegationStatus_fail_safe cryptoW "app" progW walletW stW storageW
      (.ok [1, 2]) (.ok "tx")).2.2.2.2 () kpW rfl⟩

end GridGame
